import Mathlib

/-!
# env-vault: verification of the cryptographic storage engine

Shallow embedding of the `env-vault` CLI's vault engine (Bora-Technologies/env-vault).
Cryptographic primitives are modelled symbolically (ideal-cipher style): an AES-GCM
ciphertext remembers the plaintext and the key it was produced under, and decryption
succeeds exactly when the same key is supplied; a sealed box remembers the wrapped
message and the recipient public key, and opens exactly under the matching private
key. Randomness (fresh DEKs, IVs, ephemeral keys, nonces, temp-file suffixes) is
passed in as explicit parameters. Filesystem effects are modelled as explicit traces
of filesystem operations applied to a map from paths to file contents.

The hardened post-audit modules are embedded (the repository's own security audit
mandates these fixes, its entry point requires the modules exporting
`secureWriteFileSync` and the hardened `SCRYPT_CONFIG`):
  * `packages/crypto/kdf.js` (hardened): `SCRYPT_CONFIG`, `deriveKey`, `deriveKeyLegacy`
  * `packages/crypto/aes.js`: `encrypt`, `decrypt`
  * `packages/crypto/x25519.js`: `sealBox`, `openBox`, `getFingerprint`
  * `lib/vault.js` (hardened): `secureWriteFileSync` and the artifact savers
  * `lib/unlock.js`: `unlockVault`
  * `commands/add.js`, `commands/share.js`, `commands/revoke.js`, `commands/edit.js`,
    `commands/get.js`, `commands/init.js`
-/

namespace EnvVault

/-! ## Primitives layer: scrypt KDF (`packages/crypto/kdf.js`, hardened) -/

/-- An scrypt parameter set, mirroring the JS `SCRYPT_CONFIG` object shape. -/
structure ScryptParams where
  N : Nat
  r : Nat
  p : Nat
  keyLength : Nat
deriving DecidableEq, Repr

/-- `SCRYPT_CONFIG` from the hardened kdf module: N = 2^17, r = 8, p = 1, 32-byte key. -/
def SCRYPT_CONFIG : ScryptParams := ⟨131072, 8, 1, 32⟩

/-- `SCRYPT_CONFIG_LEGACY`: the pre-hardening parameter set, kept for migration reads. -/
def SCRYPT_CONFIG_LEGACY : ScryptParams := ⟨16384, 8, 1, 32⟩

/-- The `maxmem` value the hardened `deriveKey` always passes to scrypt: 256 MiB. -/
def SCRYPT_MAXMEM : Nat := 256 * 1024 * 1024

/-- Symbolic symmetric keys: a key is either the output of the scrypt KDF on a
password, salt and parameter set (with the `maxmem` actually passed), or a random
data-encryption key identified by the randomness that produced it. -/
inductive SymKey where
  | derived (password : String) (salt : Nat) (params : ScryptParams) (maxmem : Nat)
  | dek (id : Nat)
deriving DecidableEq, Repr

/-- `deriveKey(password, salt, config)`: the hardened kdf derives with the given
config and always passes `maxmem = 256 MiB`. The JS default argument
`config = SCRYPT_CONFIG` is factored into `deriveKey` below. -/
def deriveKeyWith (config : ScryptParams) (password : String) (salt : Nat) : SymKey :=
  SymKey.derived password salt config SCRYPT_MAXMEM

/-- `deriveKey(password, salt)` with the default (current, hardened) parameter set. -/
def deriveKey (password : String) (salt : Nat) : SymKey :=
  deriveKeyWith SCRYPT_CONFIG password salt

/-- `deriveKeyLegacy(password, salt)`: derivation under the legacy parameter set. -/
def deriveKeyLegacy (password : String) (salt : Nat) : SymKey :=
  deriveKeyWith SCRYPT_CONFIG_LEGACY password salt

/-! ## Primitives layer: AES-256-GCM (`packages/crypto/aes.js`) -/

/-- Cryptographic failure: any AEAD or sealed-box verification failure. -/
inductive CryptoErr where
  | integrity
deriving DecidableEq, Repr

/-- Plaintexts handled by the symmetric layer: either UTF-8 vault content or the
raw bytes of an X25519 private key (the identity file seals the latter). -/
inductive Plain where
  | str (s : String)
  | skey (id : Nat)
deriving DecidableEq, Repr

/-- `Buffer.toString('utf8')` on a decrypted payload; vault payloads are always
`Plain.str`, so the `skey` branch is never reached by the embedded commands. -/
def plainToString : Plain → String
  | Plain.str s => s
  | Plain.skey id => "sk:" ++ toString id

/-- Symbolic AES-256-GCM ciphertext: `IV ∥ ciphertext ∥ auth-tag` is modelled as the
IV randomness together with the plaintext and key the ciphertext binds to. -/
structure CipherText where
  iv : Nat
  plain : Plain
  key : SymKey
deriving DecidableEq, Repr

/-- `encrypt(plaintext, key)` with the random IV made explicit. -/
def encrypt (m : Plain) (key : SymKey) (iv : Nat) : CipherText := ⟨iv, m, key⟩

/-- `decrypt(ciphertext, key)`: the GCM tag verifies exactly when the key matches
the one the ciphertext was produced under; otherwise the integrity failure throws. -/
def decrypt (c : CipherText) (key : SymKey) : Except CryptoErr Plain :=
  if c.key = key then Except.ok c.plain else Except.error CryptoErr.integrity

/-! ## Primitives layer: X25519 sealed boxes (`packages/crypto/x25519.js`) -/

/-- An X25519 public key, identified by the keypair randomness. -/
structure PubKey where
  id : Nat
deriving DecidableEq, Repr

/-- An X25519 private key; `⟨i⟩ : PrivKey` matches `⟨i⟩ : PubKey`. -/
structure PrivKey where
  id : Nat
deriving DecidableEq, Repr

/-- `getFingerprint(publicKey)`: first 8 bytes of SHA-256 of the key. Modelled as an
ideal (collision-free) hash, i.e. the key identity itself. -/
def getFingerprint (pk : PubKey) : Nat := pk.id

/-- Symbolic sealed box `ephemeral-public ∥ nonce ∥ ciphertext+tag`: remembers the
ephemeral randomness, the wrapped symmetric key and the recipient. Every use of
`sealBox` in the source wraps a DEK, so the message type is `SymKey`. -/
structure Sealed where
  eph : Nat
  nonce : Nat
  msg : SymKey
  recipient : PubKey
deriving DecidableEq, Repr

/-- `sealBox(message, recipientPublicKey)` with the per-call ephemeral randomness
made explicit. -/
def sealBox (message : SymKey) (recipientPub : PubKey) (eph nonce : Nat) : Sealed :=
  ⟨eph, nonce, message, recipientPub⟩

/-- `openBox(sealed, recipientSecretKey)`: succeeds exactly under the matching
private key, returning the wrapped message; otherwise the Poly1305 check fails. -/
def openBox (s : Sealed) (sk : PrivKey) : Except CryptoErr SymKey :=
  if s.recipient.id = sk.id then Except.ok s.msg else Except.error CryptoErr.integrity

/-! ## Data model: recipients document (`recipients.json`) -/

/-- One recipient record. `label` and `addedAt` are `Option` because the JS objects
written by `revoke`/`edit` omit those fields; `publicKey` is stored decoded (the
stored base64 always decodes to the 32-byte key it was encoded from). -/
structure RecipientRecord where
  label : Option String
  publicKey : PubKey
  wrappedDEK : Sealed
  addedAt : Option String
deriving DecidableEq, Repr

/-- The recipients document: `dek_version` plus the fingerprint → record object,
kept as an association list to model JS object insertion order. -/
structure RecipientsDoc where
  dek_version : Nat
  recipients : List (Nat × RecipientRecord)
deriving DecidableEq, Repr

/-- `recipients[fp]` object lookup (first binding wins; JS object keys are unique). -/
def lookupFp : List (Nat × RecipientRecord) → Nat → Option RecipientRecord
  | [], _ => none
  | e :: rest, fp => if e.1 = fp then some e.2 else lookupFp rest fp

/-- `recipients[fp] = r` JS object assignment: replaces in place when the key is
present (keeping its position), appends otherwise. -/
def setFp : List (Nat × RecipientRecord) → Nat → RecipientRecord → List (Nat × RecipientRecord)
  | [], fp, r => [(fp, r)]
  | (f, r₀) :: rest, fp, r =>
    if f = fp then (fp, r) :: rest else (f, r₀) :: setFp rest fp r

/-- The on-disk state of one vault. `none` for `secrets` means `secrets.enc` is
absent; `none` for `recipientsDoc` means `recipients.json` is absent or fails to
parse (`loadRecipients` throws in both cases). -/
structure VaultState where
  secrets : Option CipherText
  recipientsDoc : Option RecipientsDoc
deriving DecidableEq, Repr

/-- The caller's identity: the device keypair (public/private ids always match,
as the identity store persists a matching pair) and the device config label. -/
structure Identity where
  keyId : Nat
  deviceLabel : Option String
deriving DecidableEq, Repr

def Identity.pub (me : Identity) : PubKey := ⟨me.keyId⟩

def Identity.priv (me : Identity) : PrivKey := ⟨me.keyId⟩

/-- The externally visible error kinds of the vault engine. -/
inductive VaultError where
  | noAccess
  | notARecipient
  | selfRevoke
  | integrity
  | badCredentials
  | repoNotFound
deriving DecidableEq, Repr

/-! ## Re-wrapping loops

`add` re-wraps with the object spread `{...recipientData, wrappedDEK: new}`,
preserving `label`, `publicKey`, `addedAt`; `revoke` and `edit` rebuild each record
as `{publicKey, wrappedDEK}`, dropping `label` and `addedAt`. The per-recipient
sealed-box randomness is supplied by `r`. -/

/-- `add`'s re-wrap loop: spread keeps every field, `wrappedDEK` is overwritten. -/
def rewrapKeepMeta (r : PubKey → Nat × Nat) (k : SymKey)
    (m : List (Nat × RecipientRecord)) : List (Nat × RecipientRecord) :=
  m.map fun e =>
    (e.1, { e.2 with wrappedDEK := sealBox k e.2.publicKey (r e.2.publicKey).1 (r e.2.publicKey).2 })

/-- `revoke`/`edit`'s re-wrap loop: the rebuilt record carries only `publicKey`
and the new `wrappedDEK`; `label` and `addedAt` are absent from the JS object. -/
def rewrapDropMeta (r : PubKey → Nat × Nat) (k : SymKey)
    (m : List (Nat × RecipientRecord)) : List (Nat × RecipientRecord) :=
  m.map fun e =>
    (e.1, { label := none
            publicKey := e.2.publicKey
            wrappedDEK := sealBox k e.2.publicKey (r e.2.publicKey).1 (r e.2.publicKey).2
            addedAt := none })

/-! ## `commands/add.js` — `put` -/

/-- Result of a successful `add` run: the new on-disk state plus the reported
update flag and DEK version. -/
structure AddResult where
  state : VaultState
  isUpdate : Bool
  dekVersion : Nat
deriving DecidableEq, Repr

/-- `add(repo, file)` after input validation and unlock (`add.js` lines 130-195).
Notably there is no membership check on the caller: after unlocking, the command
unconditionally generates a fresh DEK, re-encrypts the supplied content, re-wraps
the DEK for whatever recipients it can load (starting fresh on a load failure,
per the `catch` around `loadRecipients`), and inserts the caller's own record.
The `Except` result type mirrors the command's ability to `process.exit`; after
unlock no path in the source fails. -/
def addCmd (s : VaultState) (me : Identity) (content : String) (freshDEK : SymKey)
    (iv : Nat) (r : PubKey → Nat × Nat) (now : String) :
    Except VaultError AddResult :=
  let isUpdate := s.secrets.isSome
  let encryptedContent := encrypt (Plain.str content) freshDEK iv
  let base :=
    if isUpdate then
      match s.recipientsDoc with
      | some existing => (rewrapKeepMeta r freshDEK existing.recipients, existing.dek_version + 1)
      | none => ([], 1)
    else ([], 1)
  let myFp := getFingerprint me.pub
  let prevAddedAt := (lookupFp base.1 myFp).bind RecipientRecord.addedAt
  let myRecord : RecipientRecord :=
    { label := some (me.deviceLabel.getD "Owner")
      publicKey := me.pub
      wrappedDEK := sealBox freshDEK me.pub (r me.pub).1 (r me.pub).2
      addedAt := some (prevAddedAt.getD now) }
  let recips := setFp base.1 myFp myRecord
  Except.ok
    { state := { secrets := some encryptedContent
                 recipientsDoc := some ⟨base.2, recips⟩ }
      isUpdate := isUpdate
      dekVersion := base.2 }

/-! ## `commands/revoke.js` -/

/-- `revoke(repo, fingerprint)` (`part_007`). Check order follows the source:
repo existence, self-revoke, target presence, caller presence, DEK unwrap,
payload decrypt; then rotate: fresh DEK, re-encrypt, drop the revoked record,
re-wrap for the remaining recipients dropping `label`/`addedAt`, bump the
version by 1. Returns the new state and the new `dek_version`. -/
def revokeCmd (s : VaultState) (me : Identity) (target : Nat) (freshDEK : SymKey)
    (iv : Nat) (r : PubKey → Nat × Nat) :
    Except VaultError (VaultState × Nat) :=
  match s.secrets, s.recipientsDoc with
  | some enc, some doc =>
    let myFp := getFingerprint me.pub
    if target = myFp then Except.error VaultError.selfRevoke
    else
      match lookupFp doc.recipients target with
      | none => Except.error VaultError.notARecipient
      | some _ =>
        match lookupFp doc.recipients myFp with
        | none => Except.error VaultError.noAccess
        | some myRec =>
          match openBox myRec.wrappedDEK me.priv with
          | Except.error _ => Except.error VaultError.integrity
          | Except.ok oldDEK =>
            match decrypt enc oldDEK with
            | Except.error _ => Except.error VaultError.integrity
            | Except.ok plain =>
              let newEnc := encrypt plain freshDEK iv
              let remaining := doc.recipients.filter fun e => !(e.1 == target)
              let newRecips := rewrapDropMeta r freshDEK remaining
              Except.ok
                ({ secrets := some newEnc
                   recipientsDoc := some ⟨doc.dek_version + 1, newRecips⟩ },
                 doc.dek_version + 1)
  | _, _ => Except.error VaultError.repoNotFound

/-! ## `commands/share.js` -/

/-- Result of a successful `share` run. -/
structure ShareResult where
  state : VaultState
  alreadyShared : Bool
  reportedLabel : Option String
deriving DecidableEq, Repr

/-- `share(repo, pubkey, label)` (`share.js` lines 43-87), after key decoding and
the label prompt. If the fingerprint is already a recipient the command reports
and returns without writing; otherwise it unwraps the current DEK via the
caller's record, wraps it for the new key, appends the new record, and saves the
recipients document with the same `dek_version`. `secrets.enc` is never touched. -/
def shareCmd (s : VaultState) (me : Identity) (recipientPub : PubKey) (label : String)
    (eph nonce : Nat) (now : String) :
    Except VaultError ShareResult :=
  match s.secrets, s.recipientsDoc with
  | some _, some doc =>
    let fpR := getFingerprint recipientPub
    match lookupFp doc.recipients fpR with
    | some existing => Except.ok ⟨s, true, existing.label⟩
    | none =>
      match lookupFp doc.recipients (getFingerprint me.pub) with
      | none => Except.error VaultError.noAccess
      | some myRec =>
        match openBox myRec.wrappedDEK me.priv with
        | Except.error _ => Except.error VaultError.integrity
        | Except.ok dek =>
          let newRec : RecipientRecord :=
            { label := some label
              publicKey := recipientPub
              wrappedDEK := sealBox dek recipientPub eph nonce
              addedAt := some now }
          Except.ok
            ⟨{ s with recipientsDoc := some ⟨doc.dek_version, setFp doc.recipients fpR newRec⟩ },
             false, some label⟩
  | _, _ => Except.error VaultError.repoNotFound

/-! ## `commands/edit.js` (`part_004`) -/

/-- `edit(repo)` after the editor round-trip, with the edited buffer supplied as
`newContent`. A byte-equal edit writes nothing; otherwise a fresh DEK is
generated, the content re-encrypted, every record re-wrapped dropping
`label`/`addedAt`, and the version bumped. The returned flag is `true` when a
write occurred. -/
def editCmd (s : VaultState) (me : Identity) (newContent : String) (freshDEK : SymKey)
    (iv : Nat) (r : PubKey → Nat × Nat) :
    Except VaultError (VaultState × Bool) :=
  match s.secrets, s.recipientsDoc with
  | some enc, some doc =>
    match lookupFp doc.recipients (getFingerprint me.pub) with
    | none => Except.error VaultError.noAccess
    | some myRec =>
      match openBox myRec.wrappedDEK me.priv with
      | Except.error _ => Except.error VaultError.integrity
      | Except.ok dek =>
        match decrypt enc dek with
        | Except.error _ => Except.error VaultError.integrity
        | Except.ok content =>
          if newContent = plainToString content then Except.ok (s, false)
          else
            let newEnc := encrypt (Plain.str newContent) freshDEK iv
            let newRecips := rewrapDropMeta r freshDEK doc.recipients
            Except.ok
              ({ secrets := some newEnc
                 recipientsDoc := some ⟨doc.dek_version + 1, newRecips⟩ },
               true)
  | _, _ => Except.error VaultError.repoNotFound

/-! ## `commands/init.js` (`part_008`) — identity creation -/

/-- The identity files written by `init`: the sealed private key, the salt, the
public key and the device config. -/
structure InitResult where
  encryptedPrivateKey : CipherText
  salt : Nat
  publicKey : PubKey
  deviceLabel : String
  fingerprint : Nat
deriving DecidableEq, Repr

/-- `init(label)` after password confirmation: generate a keypair and a salt,
derive the key with `deriveKey(password, salt)` (no config override, hence the
current hardened parameter set), seal the private key under it, record config. -/
def initIdentity (password : String) (deviceLabel : String) (keyId : Nat)
    (salt : Nat) (iv : Nat) : InitResult :=
  let key := deriveKey password salt
  { encryptedPrivateKey := encrypt (Plain.skey keyId) key iv
    salt := salt
    publicKey := ⟨keyId⟩
    deviceLabel := deviceLabel
    fingerprint := getFingerprint ⟨keyId⟩ }

/-! ## `lib/unlock.js` — `unlockVault` -/

/-- The identity files read by unlock: the sealed private key and the salt. -/
structure IdentityFiles where
  encryptedKey : CipherText
  kdfSalt : Nat
deriving DecidableEq, Repr

/-- A successful unlock: the decrypted private-key bytes plus whether the
non-fatal legacy-parameters advisory was printed. -/
structure UnlockOk where
  privateKey : Plain
  legacyAdvisory : Bool
deriving DecidableEq, Repr

/-- `unlockVault()` (`unlock.js` lines 25-47) with the prompted password and the
loaded identity files as inputs: try the current KDF parameters; on any failure
fall back to the legacy parameters, printing the upgrade advisory on success;
fail (`process.exit`) only when both attempts fail. -/
def unlockVault (password : String) (files : IdentityFiles) :
    Except VaultError UnlockOk :=
  match decrypt files.encryptedKey (deriveKey password files.kdfSalt) with
  | Except.ok m => Except.ok ⟨m, false⟩
  | Except.error _ =>
    match decrypt files.encryptedKey (deriveKeyLegacy password files.kdfSalt) with
    | Except.ok m => Except.ok ⟨m, true⟩
    | Except.error _ => Except.error VaultError.badCredentials

/-! ## `commands/get.js` (`part_005`, lines 431-557) -/

/-- One line of a `.env` buffer, parsed: skip blank and `#` lines; a line with an
`=` at a positive index yields `(trimmed key, untrimmed remainder)`. -/
def parseLine (line : String) : Option (String × String) :=
  let t := line.trim
  if t.isEmpty || t.startsWith "#" then none
  else
    match t.toList.findIdx? (fun c => c = '=') with
    | some i =>
      if 0 < i then
        some ((String.mk (t.toList.take i)).trim, String.mk (t.toList.drop (i + 1)))
      else none
    | none => none

/-- JS object assignment for string maps: update in place, else append. -/
def setAssoc : List (String × String) → String → String → List (String × String)
  | [], k, v => [(k, v)]
  | (k₀, v₀) :: rest, k, v =>
    if k₀ = k then (k, v) :: rest else (k₀, v₀) :: setAssoc rest k v

/-- `parseEnv(content)`: fold the lines into a key → value object. -/
def parseEnv (content : String) : List (String × String) :=
  (content.splitOn "\n").foldl
    (fun acc line =>
      match parseLine line with
      | some kv => setAssoc acc kv.1 kv.2
      | none => acc)
    []

/-- `stringifyEnv(obj)`: `key=value` lines joined by newlines, trailing newline. -/
def stringifyEnv (m : List (String × String)) : String :=
  String.intercalate "\n" (m.map fun e => e.1 ++ "=" ++ e.2) ++ "\n"

/-- The merge branch of `get`: every entry of the freshly decrypted env is
assigned into the parsed existing file's object, then stringified. -/
def mergeEnv (existingContent newContent : String) : String :=
  stringifyEnv ((parseEnv newContent).foldl (fun acc e => setAssoc acc e.1 e.2) (parseEnv existingContent))

/-- The user's choice at the `already exists` prompt of `get`. -/
inductive MergeAction where
  | replace
  | merge
  | cancel
deriving DecidableEq, Repr

/-- What a `get` run produced: the list of files it wrote (path, content) and
what it printed to stdout. The `writes` field records every `fs.writeFileSync`
the command performs. -/
structure GetResult where
  writes : List (String × String)
  stdoutOut : Option String
deriving DecidableEq, Repr

/-- `get`'s output-file resolution (`part_005` lines 494-501): an explicit file
wins; otherwise print mode suppresses the file and anything else defaults to
`.env`. -/
def resolveTarget (outputFile : Option String) (printFlag : Bool) : Option String :=
  match outputFile with
  | some t => some t
  | none => if printFlag then none else some ".env"

/-- `get(repo, outputFile, options)` (`part_005` lines 431-557). `existingTarget`
gives the current content of a path if that file exists (the `fs.existsSync` /
`readFileSync` pair), `action` is the prompt answer used when the target exists.
The command reads the vault, never rewrites its artifacts, and writes at most
the resolved target file. -/
def getCmd (s : VaultState) (me : Identity) (outputFile : Option String)
    (printFlag : Bool) (existingTarget : String → Option String)
    (action : MergeAction) : Except VaultError GetResult :=
  match s.secrets, s.recipientsDoc with
  | some enc, some doc =>
    match lookupFp doc.recipients (getFingerprint me.pub) with
    | none => Except.error VaultError.noAccess
    | some recipientData =>
      match openBox recipientData.wrappedDEK me.priv with
      | Except.error _ => Except.error VaultError.integrity
      | Except.ok dek =>
        match decrypt enc dek with
        | Except.error _ => Except.error VaultError.integrity
        | Except.ok decrypted =>
          let content := plainToString decrypted
          match resolveTarget outputFile printFlag with
          | none => Except.ok ⟨[], some content⟩
          | some t =>
            match existingTarget t with
            | none => Except.ok ⟨[(t, content)], none⟩
            | some existingContent =>
              match action with
              | MergeAction.cancel => Except.ok ⟨[], none⟩
              | MergeAction.merge => Except.ok ⟨[(t, mergeEnv existingContent content)], none⟩
              | MergeAction.replace => Except.ok ⟨[(t, content)], none⟩
  | _, _ => Except.error VaultError.repoNotFound

/-! ## `lib/vault.js` (hardened) — the atomic write protocol

`secureWriteFileSync(filePath, data, options)` writes the bytes to a sibling
temp file `.tmp-<random hex>` with the requested mode (default `FILE_MODE =
0600`), fsyncs it, renames it onto the target and reasserts the mode; on a
failure at any step it unlinks the temp file (when it still exists) and
rethrows. Paths are modelled as a directory string plus a symbolic file name so
that the sibling relation and temp-name freshness are structural. -/

/-- Symbolic file names inside a vault or identity directory. -/
inductive FName where
  | secretsEnc
  | recipientsJson
  | metaJson
  | privateKeyFile
  | publicKeyFile
  | saltFile
  | configJson
  | tmp (suffix : Nat)
deriving DecidableEq, Repr

/-- A path: containing directory plus file name. -/
structure VPath where
  dir : String
  fname : FName
deriving DecidableEq, Repr

/-- `path.join(path.dirname(filePath), ".tmp-" + randomBytes(8).toString("hex"))`. -/
def tempPath (target : VPath) (suffix : Nat) : VPath := ⟨target.dir, FName.tmp suffix⟩

/-- The filesystem operations `secureWriteFileSync` and the loaders perform. -/
inductive FsOp where
  | readF (p : VPath)
  | writeF (p : VPath) (mode : Nat) (data : String)
  | fsyncF (p : VPath)
  | renameF (src dst : VPath)
  | chmodF (p : VPath) (mode : Nat)
  | unlinkF (p : VPath)
deriving DecidableEq, Repr

/-- Whether an operation can change the filesystem. -/
def FsOp.isWrite : FsOp → Bool
  | FsOp.readF _ => false
  | FsOp.fsyncF _ => false
  | _ => true

/-- A filesystem: path → (content, mode), `none` when absent. -/
def Fs := VPath → Option (String × Nat)

/-- Apply one operation to a filesystem. `rename` atomically replaces the
destination with the source entry and removes the source. -/
def applyOp (fs : Fs) : FsOp → Fs
  | FsOp.readF _ => fs
  | FsOp.writeF p mode data => fun q => if q = p then some (data, mode) else fs q
  | FsOp.fsyncF _ => fs
  | FsOp.renameF src dst => fun q =>
      if q = dst then fs src else if q = src then none else fs q
  | FsOp.chmodF p mode => fun q =>
      if q = p then (fs p).map (fun e => (e.1, mode)) else fs q
  | FsOp.unlinkF p => fun q => if q = p then none else fs q

/-- Apply a trace of operations left to right. -/
def applyOps (fs : Fs) (ops : List FsOp) : Fs := ops.foldl applyOp fs

/-- `FILE_MODE = 0o600`. -/
def FILE_MODE : Nat := 0o600

/-- Where (if anywhere) an invocation of `secureWriteFileSync` fails: at the temp
write, at the fsync, at the rename, or at the final chmod. -/
inductive FailPoint where
  | noFail
  | atWrite
  | atFsync
  | atRename
  | atChmod
deriving DecidableEq, Repr

/-- The trace of filesystem operations one call of
`secureWriteFileSync(filePath, data, {mode})` performs, given the random temp
suffix and the failure point. The catch block unlinks the temp file when it
still exists: after a successful rename it no longer does, so the `atChmod`
trace ends at the rename. -/
def secureWriteFileSyncTrace (target : VPath) (mode : Option Nat) (data : String)
    (suffix : Nat) (fail : FailPoint) : List FsOp :=
  let m := mode.getD FILE_MODE
  let tmp := tempPath target suffix
  match fail with
  | FailPoint.noFail =>
    [FsOp.writeF tmp m data, FsOp.fsyncF tmp, FsOp.renameF tmp target, FsOp.chmodF target m]
  | FailPoint.atWrite => [FsOp.unlinkF tmp]
  | FailPoint.atFsync => [FsOp.writeF tmp m data, FsOp.unlinkF tmp]
  | FailPoint.atRename => [FsOp.writeF tmp m data, FsOp.fsyncF tmp, FsOp.unlinkF tmp]
  | FailPoint.atChmod => [FsOp.writeF tmp m data, FsOp.fsyncF tmp, FsOp.renameF tmp target]

/-- The vault-artifact and identity files written by the hardened `lib/vault.js`
savers (`saveSecrets`, `saveRecipients`, `saveMeta`, their local variants,
`savePrivateKey`, `savePublicKey`, `saveConfig`). Each saver calls
`secureWriteFileSync(path, bytes)` with no mode option. -/
inductive ArtifactFile where
  | secretsEnc (repoDir : String)
  | recipientsJson (repoDir : String)
  | metaJson (repoDir : String)
  | privateKeyFile
  | publicKeyFile
  | saltFile
  | configJson
deriving DecidableEq, Repr

/-- The target path of each saver. -/
def artifactPath : ArtifactFile → VPath
  | ArtifactFile.secretsEnc d => ⟨d, FName.secretsEnc⟩
  | ArtifactFile.recipientsJson d => ⟨d, FName.recipientsJson⟩
  | ArtifactFile.metaJson d => ⟨d, FName.metaJson⟩
  | ArtifactFile.privateKeyFile => ⟨"~/.env-vault/identity", FName.privateKeyFile⟩
  | ArtifactFile.publicKeyFile => ⟨"~/.env-vault/identity", FName.publicKeyFile⟩
  | ArtifactFile.saltFile => ⟨"~/.env-vault/identity", FName.saltFile⟩
  | ArtifactFile.configJson => ⟨"~/.env-vault", FName.configJson⟩

/-- A saver's trace: `secureWriteFileSync` against the target, no mode option. -/
def saveArtifactTrace (f : ArtifactFile) (data : String) (suffix : Nat)
    (fail : FailPoint) : List FsOp :=
  secureWriteFileSyncTrace (artifactPath f) none data suffix fail

/-- The filesystem trace of `unlockVault`: `loadPrivateKey` reads the sealed
private key and the salt; nothing else touches the disk. -/
def unlockTrace : List FsOp :=
  [FsOp.readF (artifactPath ArtifactFile.privateKeyFile),
   FsOp.readF (artifactPath ArtifactFile.saltFile)]

/-! ## Mutation sequences (invariant I2) -/

/-- A content-rotation event on a vault: a `put` (the `add` command) or a
`revoke`, with its randomness. -/
inductive MutOp where
  | putOp (content : String) (freshDEK : SymKey) (iv : Nat) (now : String)
  | revokeOp (target : Nat) (freshDEK : SymKey) (iv : Nat)

/-- One successful step: `none` when the command fails. -/
def stepPR (me : Identity) (r : PubKey → Nat × Nat) (s : VaultState) :
    MutOp → Option VaultState
  | MutOp.putOp c k iv now =>
    match addCmd s me c k iv r now with
    | Except.ok res => some res.state
    | Except.error _ => none
  | MutOp.revokeOp t k iv =>
    match revokeCmd s me t k iv r with
    | Except.ok res => some res.1
    | Except.error _ => none

/-- Run a sequence of mutations, stopping at the first failure. -/
def runPR (me : Identity) (r : PubKey → Nat × Nat) :
    VaultState → List MutOp → Option VaultState
  | s, [] => some s
  | s, op :: ops =>
    match stepPR me r s op with
    | some s' => runPR me r s' ops
    | none => none

/-- The `dek_version` stored on disk (0 when the document is absent). -/
def storedVersion (s : VaultState) : Nat :=
  (s.recipientsDoc.map RecipientsDoc.dek_version).getD 0

/-- Well-formed vault: both artifacts present and parseable. -/
def WFVault (s : VaultState) : Prop :=
  s.secrets.isSome = true ∧ s.recipientsDoc.isSome = true

/-! ## Helper lemmas on the recipients mapping -/

theorem lookupFp_rewrapKeep (r : PubKey → Nat × Nat) (k : SymKey)
    (m : List (Nat × RecipientRecord)) (fp : Nat) :
    lookupFp (rewrapKeepMeta r k m) fp =
      (lookupFp m fp).map fun rec =>
        { rec with wrappedDEK := sealBox k rec.publicKey (r rec.publicKey).1 (r rec.publicKey).2 } := by
  induction m with
  | nil => rfl
  | cons e rest ih =>
    by_cases h : e.1 = fp
    · simp [rewrapKeepMeta, lookupFp, h]
    · simpa [rewrapKeepMeta, lookupFp, h] using ih

theorem lookupFp_rewrapDrop (r : PubKey → Nat × Nat) (k : SymKey)
    (m : List (Nat × RecipientRecord)) (fp : Nat) :
    lookupFp (rewrapDropMeta r k m) fp =
      (lookupFp m fp).map fun rec =>
        (⟨none, rec.publicKey,
          sealBox k rec.publicKey (r rec.publicKey).1 (r rec.publicKey).2, none⟩ :
          RecipientRecord) := by
  induction m with
  | nil => rfl
  | cons e rest ih =>
    by_cases h : e.1 = fp
    · simp [rewrapDropMeta, lookupFp, h]
    · simpa [rewrapDropMeta, lookupFp, h] using ih

theorem lookupFp_filter_self (m : List (Nat × RecipientRecord)) (target : Nat) :
    lookupFp (m.filter fun e => !(e.1 == target)) target = none := by
  induction m with
  | nil => rfl
  | cons e rest ih =>
    by_cases h : e.1 = target
    · have hb : (!(e.1 == target)) = false := by simp [h]
      simpa [List.filter_cons, hb] using ih
    · have hb : (!(e.1 == target)) = true := by simp [h]
      simpa [List.filter_cons, hb, lookupFp, h] using ih

theorem lookupFp_filter_ne (m : List (Nat × RecipientRecord)) (target fp : Nat)
    (h : fp ≠ target) :
    lookupFp (m.filter fun e => !(e.1 == target)) fp = lookupFp m fp := by
  induction m with
  | nil => rfl
  | cons e rest ih =>
    by_cases he : e.1 = target
    · have hb : (!(e.1 == target)) = false := by simp [he]
      have hne : ¬ e.1 = fp := fun hc => h (by rw [← hc, he])
      simpa [List.filter_cons, hb, lookupFp, hne] using ih
    · have hb : (!(e.1 == target)) = true := by simp [he]
      have hstep : (e :: rest).filter (fun e => !(e.1 == target)) =
          e :: rest.filter (fun e => !(e.1 == target)) := by
        simp [List.filter_cons, hb]
      by_cases hf : e.1 = fp
      · rw [hstep]
        simp [lookupFp, hf]
      · rw [hstep]
        simpa [lookupFp, hf] using ih

theorem setFp_not_mem (m : List (Nat × RecipientRecord)) (fp : Nat)
    (rec : RecipientRecord) (h : lookupFp m fp = none) :
    setFp m fp rec = m ++ [(fp, rec)] := by
  induction m with
  | nil => rfl
  | cons e rest ih =>
    by_cases he : e.1 = fp
    · simp [lookupFp, he] at h
    · simp only [lookupFp, if_neg he] at h
      simp [setFp, he, ih h]

theorem lookupFp_setFp_ne (m : List (Nat × RecipientRecord)) (fp : Nat)
    (rec : RecipientRecord) (fp' : Nat) (h : fp' ≠ fp) :
    lookupFp (setFp m fp rec) fp' = lookupFp m fp' := by
  have hfp : ¬ fp = fp' := fun hc => h hc.symm
  induction m with
  | nil => simp [setFp, lookupFp, hfp]
  | cons e rest ih =>
    by_cases he : e.1 = fp
    · have hne : ¬ e.1 = fp' := fun hc => h (by rw [← hc, he])
      simp [setFp, he, lookupFp, hfp, hne]
    · have hstep : setFp (e :: rest) fp rec = e :: setFp rest fp rec := by
        cases e with
        | mk f r₀ => simp [setFp, he]
      by_cases hf : e.1 = fp'
      · rw [hstep]
        simp [lookupFp, hf]
      · rw [hstep]
        simp [lookupFp, hf, ih]

/-! ## Claim theorems -/

/-- C6: for every password and salt, deriving a key with the current parameter set
runs scrypt with N = 131072 (2^17), r = 8, p = 1, keyLength = 32 and
maxmem = 256 MiB; and every newly created identity seals its private key under a
key derived with this current parameter set. -/
theorem deriveKey_uses_hardened_params_and_init_seals_with_them :
    (∀ password salt, deriveKey password salt =
      SymKey.derived password salt ⟨131072, 8, 1, 32⟩ (256 * 1024 * 1024)) ∧
    (∀ password label keyId salt iv,
      (initIdentity password label keyId salt iv).encryptedPrivateKey =
        encrypt (Plain.skey keyId) (deriveKeyWith SCRYPT_CONFIG password salt) iv) := by
  exact ⟨fun _ _ => rfl, fun _ _ _ _ _ => rfl⟩

/-- C8: `unlock(password)` derives with the current KDF parameters and tries to
decrypt the sealed private key; on failure it retries with the legacy
parameters, setting the non-fatal upgrade advisory on legacy success; it returns
the private key if either attempt succeeds, fails only when both fail, and its
filesystem trace contains no write and leaves the filesystem unchanged. -/
theorem unlockVault_current_then_legacy_no_writes (password : String)
    (files : IdentityFiles) :
    (∀ m, decrypt files.encryptedKey (deriveKey password files.kdfSalt) = Except.ok m →
      unlockVault password files = Except.ok ⟨m, false⟩) ∧
    (∀ e m, decrypt files.encryptedKey (deriveKey password files.kdfSalt) = Except.error e →
      decrypt files.encryptedKey (deriveKeyLegacy password files.kdfSalt) = Except.ok m →
      unlockVault password files = Except.ok ⟨m, true⟩) ∧
    (∀ e e', decrypt files.encryptedKey (deriveKey password files.kdfSalt) = Except.error e →
      decrypt files.encryptedKey (deriveKeyLegacy password files.kdfSalt) = Except.error e' →
      unlockVault password files = Except.error VaultError.badCredentials) ∧
    (unlockTrace.all (fun op => !op.isWrite) = true ∧
      ∀ fs : Fs, applyOps fs unlockTrace = fs) := by
  refine ⟨fun m hm => ?_, fun e m he hm => ?_, fun e e' he he' => ?_, by decide, fun fs => rfl⟩
  · simp [unlockVault, hm]
  · simp [unlockVault, he, hm]
  · simp [unlockVault, he, he']

/-- Witness for C8: a concrete identity file sealed under the current parameters
unlocks on the first attempt with no legacy advisory. -/
theorem unlockVault_current_then_legacy_no_writes_witness :
    unlockVault "pw" ⟨encrypt (Plain.skey 1) (deriveKey "pw" 5) 0, 5⟩ =
      Except.ok ⟨Plain.skey 1, false⟩ :=
  (unlockVault_current_then_legacy_no_writes "pw"
    ⟨encrypt (Plain.skey 1) (deriveKey "pw" 5) 0, 5⟩).1 (Plain.skey 1)
    (by simp [decrypt, encrypt])

/-- C10: when `secrets.enc` exists but the recipients document is missing or
unparsable (`loadRecipients` throws and the `catch` starts fresh), the `add`
command does not fail: it succeeds and writes a fresh recipients document
containing only the caller's record, with `dek_version` reset to 1. -/
theorem addCmd_corrupt_recipients_resets_to_caller_only (enc : CipherText)
    (me : Identity) (content : String) (freshDEK : SymKey) (iv : Nat)
    (r : PubKey → Nat × Nat) (now : String) :
    addCmd ⟨some enc, none⟩ me content freshDEK iv r now =
      Except.ok
        { state := { secrets := some (encrypt (Plain.str content) freshDEK iv)
                     recipientsDoc := some ⟨1,
                       [(getFingerprint me.pub,
                         { label := some (me.deviceLabel.getD "Owner")
                           publicKey := me.pub
                           wrappedDEK := sealBox freshDEK me.pub (r me.pub).1 (r me.pub).2
                           addedAt := some now })]⟩ }
          isUpdate := true
          dekVersion := 1 } := rfl

/-- A vault owned by the keypair with id 2 only; the caller (id 1) is not a
recipient. Used to exhibit that `add` performs no access check. -/
def c1State : VaultState :=
  ⟨some (encrypt (Plain.str "OLD") (SymKey.dek 7) 0),
   some ⟨3, [(2, ⟨some "Paul", ⟨2⟩, sealBox (SymKey.dek 7) ⟨2⟩ 0 0, some "D0"⟩)]⟩⟩

/-- C1 counterexample: on an existing vault whose recipients document does not
contain the caller's fingerprint, `add` does not fail with `NoAccess`: it
succeeds, rewrites both artifacts (rotating the DEK and bumping the version),
and inserts the caller's own record — so at this input the claimed behaviour
(`NoAccess` failure with artifacts unchanged) is false. -/
theorem addCmd_no_access_check_counterexample :
    lookupFp [(2, ⟨some "Paul", ⟨2⟩, sealBox (SymKey.dek 7) ⟨2⟩ 0 0, some "D0"⟩)] 1 = none ∧
    addCmd c1State ⟨1, some "Mallory"⟩ "NEW" (SymKey.dek 9) 1 (fun _ => (0, 0)) "T1" =
      Except.ok
        { state := { secrets := some (encrypt (Plain.str "NEW") (SymKey.dek 9) 1)
                     recipientsDoc := some ⟨4,
                       [(2, ⟨some "Paul", ⟨2⟩, sealBox (SymKey.dek 9) ⟨2⟩ 0 0, some "D0"⟩),
                        (1, ⟨some "Mallory", ⟨1⟩, sealBox (SymKey.dek 9) ⟨1⟩ 0 0, some "T1"⟩)]⟩ }
          isUpdate := true
          dekVersion := 4 } ∧
    ({ secrets := some (encrypt (Plain.str "NEW") (SymKey.dek 9) 1)
       recipientsDoc := some ⟨4,
         [(2, ⟨some "Paul", ⟨2⟩, sealBox (SymKey.dek 9) ⟨2⟩ 0 0, some "D0"⟩),
          (1, ⟨some "Mallory", ⟨1⟩, sealBox (SymKey.dek 9) ⟨1⟩ 0 0, some "T1"⟩)]⟩ } : VaultState)
      ≠ c1State := by
  refine ⟨rfl, rfl, by decide⟩

/-- C1 (amended): `put` on an existing vault by a caller whose fingerprint is
absent from the recipients document does not fail with `NoAccess`: it succeeds,
re-wraps the fresh DEK for every existing recipient, appends the caller's own
record, and bumps `dek_version` by 1. -/
theorem addCmd_nonrecipient_update_succeeds (s : VaultState) (me : Identity)
    (content : String) (freshDEK : SymKey) (iv : Nat) (r : PubKey → Nat × Nat)
    (now : String) (enc : CipherText) (doc : RecipientsDoc)
    (hsec : s.secrets = some enc) (hdoc : s.recipientsDoc = some doc)
    (habs : lookupFp doc.recipients (getFingerprint me.pub) = none) :
    addCmd s me content freshDEK iv r now =
      Except.ok
        { state := { secrets := some (encrypt (Plain.str content) freshDEK iv)
                     recipientsDoc := some ⟨doc.dek_version + 1,
                       rewrapKeepMeta r freshDEK doc.recipients ++
                         [(getFingerprint me.pub,
                           { label := some (me.deviceLabel.getD "Owner")
                             publicKey := me.pub
                             wrappedDEK := sealBox freshDEK me.pub (r me.pub).1 (r me.pub).2
                             addedAt := some now })]⟩ }
          isUpdate := true
          dekVersion := doc.dek_version + 1 } := by
  have hbase :
      lookupFp (rewrapKeepMeta r freshDEK doc.recipients) (getFingerprint me.pub) = none := by
    rw [lookupFp_rewrapKeep, habs]
    rfl
  simp [addCmd, hsec, hdoc, hbase, setFp_not_mem _ _ _ hbase]

/-- Witness for C1 (amended): a concrete non-recipient caller updating a
one-recipient vault. -/
theorem addCmd_nonrecipient_update_succeeds_witness :
    addCmd ⟨some (encrypt (Plain.str "V") (SymKey.dek 3) 0),
        some ⟨5, [(8, ⟨some "Dev", ⟨8⟩, sealBox (SymKey.dek 3) ⟨8⟩ 1 1, some "D1"⟩)]⟩⟩
      ⟨4, none⟩ "W" (SymKey.dek 6) 2 (fun _ => (9, 9)) "T9" =
      Except.ok
        { state := { secrets := some (encrypt (Plain.str "W") (SymKey.dek 6) 2)
                     recipientsDoc := some ⟨5 + 1,
                       rewrapKeepMeta (fun _ => (9, 9)) (SymKey.dek 6)
                           [(8, ⟨some "Dev", ⟨8⟩, sealBox (SymKey.dek 3) ⟨8⟩ 1 1, some "D1"⟩)] ++
                         [(getFingerprint (Identity.pub ⟨4, none⟩),
                           { label := some ((none : Option String).getD "Owner")
                             publicKey := Identity.pub ⟨4, none⟩
                             wrappedDEK := sealBox (SymKey.dek 6) (Identity.pub ⟨4, none⟩) 9 9
                             addedAt := some "T9" })]⟩ }
          isUpdate := true
          dekVersion := 5 + 1 } :=
  addCmd_nonrecipient_update_succeeds _ ⟨4, none⟩ "W" (SymKey.dek 6) 2 (fun _ => (9, 9)) "T9"
    _ _ rfl rfl (by decide)

/-- C7: `share` on an existing vault is idempotent when the supplied key's
fingerprint is already present (nothing on disk changes and the stored label is
reported); otherwise it appends exactly one new record wrapping the current DEK
obtained from the caller's record; in both cases `dek_version` and the encrypted
payload are unchanged. -/
theorem shareCmd_idempotent_or_appends_only (s : VaultState) (me : Identity)
    (recipientPub : PubKey) (label : String) (eph nonce : Nat) (now : String)
    (enc : CipherText) (doc : RecipientsDoc)
    (hsec : s.secrets = some enc) (hdoc : s.recipientsDoc = some doc) :
    (∀ existing, lookupFp doc.recipients (getFingerprint recipientPub) = some existing →
      shareCmd s me recipientPub label eph nonce now = Except.ok ⟨s, true, existing.label⟩) ∧
    (∀ myRec, lookupFp doc.recipients (getFingerprint recipientPub) = none →
      lookupFp doc.recipients (getFingerprint me.pub) = some myRec →
      myRec.wrappedDEK.recipient = me.pub →
      shareCmd s me recipientPub label eph nonce now =
        Except.ok
          ⟨{ secrets := s.secrets
             recipientsDoc := some ⟨doc.dek_version,
               doc.recipients ++
                 [(getFingerprint recipientPub,
                   { label := some label
                     publicKey := recipientPub
                     wrappedDEK := sealBox myRec.wrappedDEK.msg recipientPub eph nonce
                     addedAt := some now })]⟩ },
           false, some label⟩) := by
  constructor
  · intro existing hex
    simp [shareCmd, hsec, hdoc, hex]
  · intro myRec habs hme hwrap
    have hopen : openBox myRec.wrappedDEK me.priv = Except.ok myRec.wrappedDEK.msg := by
      simp [openBox, hwrap, Identity.pub, Identity.priv]
    have happ := setFp_not_mem doc.recipients (getFingerprint recipientPub)
      ({ label := some label
         publicKey := recipientPub
         wrappedDEK := sealBox myRec.wrappedDEK.msg recipientPub eph nonce
         addedAt := some now }) habs
    simp [shareCmd, hsec, hdoc, habs, hme, hopen, happ]

/-- Witness for C7: sharing with an already-present fingerprint changes nothing
and reports the stored label. -/
theorem shareCmd_idempotent_or_appends_only_witness :
    shareCmd ⟨some (encrypt (Plain.str "V") (SymKey.dek 3) 0),
        some ⟨2, [(6, ⟨some "Pia", ⟨6⟩, sealBox (SymKey.dek 3) ⟨6⟩ 0 0, some "D2"⟩)]⟩⟩
      ⟨6, some "Pia"⟩ ⟨6⟩ "again" 4 4 "T2" =
      Except.ok
        ⟨⟨some (encrypt (Plain.str "V") (SymKey.dek 3) 0),
          some ⟨2, [(6, ⟨some "Pia", ⟨6⟩, sealBox (SymKey.dek 3) ⟨6⟩ 0 0, some "D2"⟩)]⟩⟩,
         true, some "Pia"⟩ :=
  (shareCmd_idempotent_or_appends_only _ ⟨6, some "Pia"⟩ ⟨6⟩ "again" 4 4 "T2" _ _
    rfl rfl).1 ⟨some "Pia", ⟨6⟩, sealBox (SymKey.dek 3) ⟨6⟩ 0 0, some "D2"⟩ (by decide)

/-- C2: a successful `revoke(f)` with `f` present and distinct from the caller
removes `f`'s record, re-encrypts the payload under a fresh DEK, re-wraps the new
DEK for every remaining recipient, bumps `dek_version` by 1, and the old DEK
recoverable from `f`'s prior `wrappedDEK` no longer decrypts the new payload
(`Integrity`). Freshness of the generated DEK is the hypothesis `hfresh`
(32 random bytes collide with the old key only with negligible probability). -/
theorem revokeCmd_rotates_and_locks_out (s : VaultState) (me : Identity)
    (target : Nat) (freshDEK : SymKey) (iv : Nat) (r : PubKey → Nat × Nat)
    (enc : CipherText) (doc : RecipientsDoc) (myRec tRec : RecipientRecord)
    (hsec : s.secrets = some enc) (hdoc : s.recipientsDoc = some doc)
    (hne : target ≠ getFingerprint me.pub)
    (hT : lookupFp doc.recipients target = some tRec)
    (hMe : lookupFp doc.recipients (getFingerprint me.pub) = some myRec)
    (hwrap : myRec.wrappedDEK.recipient = me.pub)
    (hkey : enc.key = myRec.wrappedDEK.msg)
    (htw : tRec.wrappedDEK.msg = myRec.wrappedDEK.msg)
    (hfresh : freshDEK ≠ myRec.wrappedDEK.msg) :
    revokeCmd s me target freshDEK iv r =
      Except.ok
        ({ secrets := some (encrypt enc.plain freshDEK iv)
           recipientsDoc := some ⟨doc.dek_version + 1,
             rewrapDropMeta r freshDEK
               (doc.recipients.filter fun e => !(e.1 == target))⟩ },
         doc.dek_version + 1) ∧
    lookupFp (rewrapDropMeta r freshDEK
        (doc.recipients.filter fun e => !(e.1 == target))) target = none ∧
    (∀ fp rec, lookupFp (doc.recipients.filter fun e => !(e.1 == target)) fp = some rec →
      lookupFp (rewrapDropMeta r freshDEK
          (doc.recipients.filter fun e => !(e.1 == target))) fp =
        some ⟨none, rec.publicKey,
          sealBox freshDEK rec.publicKey (r rec.publicKey).1 (r rec.publicKey).2, none⟩) ∧
    decrypt (encrypt enc.plain freshDEK iv) tRec.wrappedDEK.msg =
      Except.error CryptoErr.integrity := by
  have hopen : openBox myRec.wrappedDEK me.priv = Except.ok myRec.wrappedDEK.msg := by
    simp [openBox, hwrap, Identity.pub, Identity.priv]
  have hdec : decrypt enc myRec.wrappedDEK.msg = Except.ok enc.plain := by
    simp [decrypt, hkey]
  refine ⟨?_, ?_, ?_, ?_⟩
  · simp [revokeCmd, hsec, hdoc, hne, hT, hMe, hopen, hdec]
  · rw [lookupFp_rewrapDrop, lookupFp_filter_self]
    rfl
  · intro fp rec hrec
    rw [lookupFp_rewrapDrop, hrec]
    rfl
  · simp [decrypt, encrypt, htw]
    intro hc
    exact absurd hc hfresh

/-- Witness for C2: a concrete owner (id 1) revokes recipient 2 from a
two-recipient vault. -/
theorem revokeCmd_rotates_and_locks_out_witness :
    revokeCmd
        ⟨some (encrypt (Plain.str "A=1") (SymKey.dek 7) 0),
         some ⟨1, [(1, ⟨some "Me", ⟨1⟩, sealBox (SymKey.dek 7) ⟨1⟩ 0 0, some "D0"⟩),
                   (2, ⟨some "Paul", ⟨2⟩, sealBox (SymKey.dek 7) ⟨2⟩ 0 0, some "D1"⟩)]⟩⟩
        ⟨1, some "Me"⟩ 2 (SymKey.dek 9) 1 (fun _ => (0, 0)) =
      Except.ok
        ({ secrets := some (encrypt (Plain.str "A=1") (SymKey.dek 9) 1)
           recipientsDoc := some ⟨1 + 1,
             rewrapDropMeta (fun _ => (0, 0)) (SymKey.dek 9)
               (([(1, ⟨some "Me", ⟨1⟩, sealBox (SymKey.dek 7) ⟨1⟩ 0 0, some "D0"⟩),
                  (2, ⟨some "Paul", ⟨2⟩, sealBox (SymKey.dek 7) ⟨2⟩ 0 0, some "D1"⟩)] :
                 List (Nat × RecipientRecord)).filter fun e => !(e.1 == 2))⟩ },
         1 + 1) :=
  (revokeCmd_rotates_and_locks_out _ ⟨1, some "Me"⟩ 2 (SymKey.dek 9) 1 (fun _ => (0, 0))
    (encrypt (Plain.str "A=1") (SymKey.dek 7) 0)
    ⟨1, [(1, ⟨some "Me", ⟨1⟩, sealBox (SymKey.dek 7) ⟨1⟩ 0 0, some "D0"⟩),
         (2, ⟨some "Paul", ⟨2⟩, sealBox (SymKey.dek 7) ⟨2⟩ 0 0, some "D1"⟩)]⟩
    ⟨some "Me", ⟨1⟩, sealBox (SymKey.dek 7) ⟨1⟩ 0 0, some "D0"⟩
    ⟨some "Paul", ⟨2⟩, sealBox (SymKey.dek 7) ⟨2⟩ 0 0, some "D1"⟩
    rfl rfl (by decide) (by decide) (by decide) rfl rfl rfl (by decide)).1

/-- The two-recipient vault used to exhibit that `revoke` drops `label` and
`addedAt` from the remaining records. -/
def c4State : VaultState :=
  ⟨some (encrypt (Plain.str "A=1") (SymKey.dek 7) 0),
   some ⟨1, [(1, ⟨some "Me", ⟨1⟩, sealBox (SymKey.dek 7) ⟨1⟩ 0 0, some "D0"⟩),
             (2, ⟨some "Paul", ⟨2⟩, sealBox (SymKey.dek 7) ⟨2⟩ 0 0, some "D1"⟩)]⟩⟩

/-- Post-state recipients mapping of a `revoke` result. -/
def revokedRecipients : Except VaultError (VaultState × Nat) →
    Option (List (Nat × RecipientRecord))
  | Except.ok res => res.1.recipientsDoc.map RecipientsDoc.recipients
  | Except.error _ => none

/-- C4 counterexample: after revoking recipient 2, the caller's own remaining
record — which before had `label = "Me"` and `addedAt = "D0"` — is rewritten to
carry only `publicKey` and the new `wrappedDEK`: `label` and `addedAt` are gone,
so the claimed preservation fails on `revoke` at this input. -/
theorem revoke_drops_label_addedAt_counterexample :
    (revokedRecipients (revokeCmd c4State ⟨1, some "Me"⟩ 2 (SymKey.dek 9) 1
        (fun _ => (0, 0)))).map (fun l => lookupFp l 1) =
      some (some ⟨none, ⟨1⟩, sealBox (SymKey.dek 9) ⟨1⟩ 0 0, none⟩) ∧
    (c4State.recipientsDoc.map fun d => lookupFp d.recipients 1) =
      some (some ⟨some "Me", ⟨1⟩, sealBox (SymKey.dek 7) ⟨1⟩ 0 0, some "D0"⟩) := by
  exact ⟨rfl, rfl⟩

/-- Post-state recipients mapping of an `add` result. -/
def addPostRecipients : Except VaultError AddResult →
    Option (List (Nat × RecipientRecord))
  | Except.ok res => res.state.recipientsDoc.map RecipientsDoc.recipients
  | Except.error _ => none

/-- C4 (amended): on a `put`, every remaining pre-existing recipient record other
than the caller's keeps its `label`, `publicKey` and `addedAt` and only its
`wrappedDEK` is rewritten; on `revoke` and `edit`, the rewritten remaining
records keep only `publicKey` (plus the new `wrappedDEK`) — `label` and
`addedAt` are dropped. -/
theorem rotation_rewrap_field_treatment (me : Identity) (r : PubKey → Nat × Nat)
    (k : SymKey) (iv : Nat) :
    (∀ (s : VaultState) content now enc doc fp rec,
      s.secrets = some enc → s.recipientsDoc = some doc →
      fp ≠ getFingerprint me.pub →
      lookupFp doc.recipients fp = some rec →
      (addPostRecipients (addCmd s me content k iv r now)).map (fun l => lookupFp l fp) =
        some (some { rec with
          wrappedDEK := sealBox k rec.publicKey (r rec.publicKey).1 (r rec.publicKey).2 })) ∧
    (∀ (s : VaultState) target enc doc myRec tRec fp rec,
      s.secrets = some enc → s.recipientsDoc = some doc →
      target ≠ getFingerprint me.pub →
      lookupFp doc.recipients target = some tRec →
      lookupFp doc.recipients (getFingerprint me.pub) = some myRec →
      myRec.wrappedDEK.recipient = me.pub →
      enc.key = myRec.wrappedDEK.msg →
      fp ≠ target →
      lookupFp doc.recipients fp = some rec →
      (revokedRecipients (revokeCmd s me target k iv r)).map (fun l => lookupFp l fp) =
        some (some ⟨none, rec.publicKey,
          sealBox k rec.publicKey (r rec.publicKey).1 (r rec.publicKey).2, none⟩)) ∧
    (∀ (s : VaultState) newContent enc doc myRec fp rec,
      s.secrets = some enc → s.recipientsDoc = some doc →
      lookupFp doc.recipients (getFingerprint me.pub) = some myRec →
      myRec.wrappedDEK.recipient = me.pub →
      enc.key = myRec.wrappedDEK.msg →
      newContent ≠ plainToString enc.plain →
      lookupFp doc.recipients fp = some rec →
      editCmd s me newContent k iv r =
        Except.ok
          ({ secrets := some (encrypt (Plain.str newContent) k iv)
             recipientsDoc := some ⟨doc.dek_version + 1, rewrapDropMeta r k doc.recipients⟩ },
           true) ∧
      lookupFp (rewrapDropMeta r k doc.recipients) fp =
        some ⟨none, rec.publicKey,
          sealBox k rec.publicKey (r rec.publicKey).1 (r rec.publicKey).2, none⟩) := by
  refine ⟨?_, ?_, ?_⟩
  · intro s content now enc doc fp rec hsec hdoc hfp hrec
    simp only [addCmd, hsec, hdoc, Option.isSome_some, if_true, addPostRecipients]
    simp [lookupFp_setFp_ne _ _ _ _ hfp, lookupFp_rewrapKeep, hrec]
  · intro s target enc doc myRec tRec fp rec hsec hdoc hne hT hMe hwrap hkey hfp hrec
    have hopen : openBox myRec.wrappedDEK me.priv = Except.ok myRec.wrappedDEK.msg := by
      simp [openBox, hwrap, Identity.pub, Identity.priv]
    have hdec : decrypt enc myRec.wrappedDEK.msg = Except.ok enc.plain := by
      simp [decrypt, hkey]
    have hrun : revokeCmd s me target k iv r =
        Except.ok
          ({ secrets := some (encrypt enc.plain k iv)
             recipientsDoc := some ⟨doc.dek_version + 1,
               rewrapDropMeta r k (doc.recipients.filter fun e => !(e.1 == target))⟩ },
           doc.dek_version + 1) := by
      simp [revokeCmd, hsec, hdoc, hne, hT, hMe, hopen, hdec]
    rw [hrun]
    simp only [revokedRecipients]
    simp [lookupFp_rewrapDrop, lookupFp_filter_ne _ _ _ hfp, hrec]
  · intro s newContent enc doc myRec fp rec hsec hdoc hMe hwrap hkey hchange hrec
    have hopen : openBox myRec.wrappedDEK me.priv = Except.ok myRec.wrappedDEK.msg := by
      simp [openBox, hwrap, Identity.pub, Identity.priv]
    have hdec : decrypt enc myRec.wrappedDEK.msg = Except.ok enc.plain := by
      simp [decrypt, hkey]
    refine ⟨by simp [editCmd, hsec, hdoc, hMe, hopen, hdec, hchange], ?_⟩
    rw [lookupFp_rewrapDrop, hrec]
    rfl

/-- Witness for C4 (amended): in a two-recipient vault owned by id 1, a `put`
keeps recipient 2's `label`, `publicKey`, `addedAt` and rewrites only its
`wrappedDEK`. -/
theorem rotation_rewrap_field_treatment_witness :
    (addPostRecipients (addCmd
        ⟨some (encrypt (Plain.str "A=1") (SymKey.dek 7) 0),
         some ⟨1, [(1, ⟨some "Me", ⟨1⟩, sealBox (SymKey.dek 7) ⟨1⟩ 0 0, some "D0"⟩),
                   (2, ⟨some "Paul", ⟨2⟩, sealBox (SymKey.dek 7) ⟨2⟩ 0 0, some "D1"⟩)]⟩⟩
        ⟨1, some "Me"⟩ "B=2" (SymKey.dek 9) 1 (fun _ => (0, 0)) "T1")).map
        (fun l => lookupFp l 2) =
      some (some { label := some "Paul", publicKey := ⟨2⟩,
                   wrappedDEK := sealBox (SymKey.dek 9) ⟨2⟩ 0 0, addedAt := some "D1" }) :=
  (rotation_rewrap_field_treatment ⟨1, some "Me"⟩ (fun _ => (0, 0)) (SymKey.dek 9) 1).1
    _ "B=2" "T1" (encrypt (Plain.str "A=1") (SymKey.dek 7) 0)
    ⟨1, [(1, ⟨some "Me", ⟨1⟩, sealBox (SymKey.dek 7) ⟨1⟩ 0 0, some "D0"⟩),
         (2, ⟨some "Paul", ⟨2⟩, sealBox (SymKey.dek 7) ⟨2⟩ 0 0, some "D1"⟩)]⟩
    2 ⟨some "Paul", ⟨2⟩, sealBox (SymKey.dek 7) ⟨2⟩ 0 0, some "D1"⟩
    rfl rfl (by decide) (by decide)

/-- Inversion: a successful `revoke` came through the success path, so the
pre-state had a recipients document and the result bumps its version by 1. -/
theorem revokeCmd_ok_inv (s : VaultState) (me : Identity) (target : Nat)
    (k : SymKey) (iv : Nat) (r : PubKey → Nat × Nat) (s' : VaultState) (v : Nat)
    (h : revokeCmd s me target k iv r = Except.ok (s', v)) :
    ∃ doc, s.recipientsDoc = some doc ∧ v = doc.dek_version + 1 ∧
      s'.recipientsDoc = some ⟨doc.dek_version + 1,
        rewrapDropMeta r k (doc.recipients.filter fun e => !(e.1 == target))⟩ ∧
      s'.secrets.isSome = true := by
  cases hsec : s.secrets with
  | none => simp [revokeCmd, hsec] at h
  | some enc =>
    cases hdoc : s.recipientsDoc with
    | none => simp [revokeCmd, hsec, hdoc] at h
    | some doc =>
      refine ⟨doc, rfl, ?_⟩
      simp only [revokeCmd, hsec, hdoc] at h
      split at h
      · exact Except.noConfusion h
      · split at h
        · exact Except.noConfusion h
        · split at h
          · exact Except.noConfusion h
          · split at h
            · exact Except.noConfusion h
            · split at h
              · exact Except.noConfusion h
              · injection h with h1
                have h2 := congrArg Prod.fst h1
                have h3 := congrArg Prod.snd h1
                simp only at h2 h3
                subst h3
                rw [← h2]
                exact ⟨rfl, rfl, rfl⟩

/-- A successful rotation step preserves the presence of both artifacts and bumps
the stored `dek_version` by exactly 1. -/
theorem stepPR_some_version (me : Identity) (r : PubKey → Nat × Nat)
    (s : VaultState) (op : MutOp) (s' : VaultState)
    (h : stepPR me r s op = some s') (hwf : WFVault s) :
    WFVault s' ∧ storedVersion s' = storedVersion s + 1 := by
  obtain ⟨enc, hsec⟩ := Option.isSome_iff_exists.mp hwf.1
  obtain ⟨doc, hdoc⟩ := Option.isSome_iff_exists.mp hwf.2
  cases op with
  | putOp c k iv now =>
    simp only [stepPR, addCmd, hsec, hdoc, Option.isSome_some, if_true] at h
    injection h with h1
    subst h1
    exact ⟨⟨rfl, rfl⟩, by simp [storedVersion, hdoc]⟩
  | revokeOp t k iv =>
    cases hrc : revokeCmd s me t k iv r with
    | error e => simp [stepPR, hrc] at h
    | ok pair =>
      obtain ⟨doc', hdoc', hv, hrdoc, hrsec⟩ :=
        revokeCmd_ok_inv s me t k iv r pair.1 pair.2 (by rw [hrc])
      have hdd : doc' = doc := by
        rw [hdoc] at hdoc'
        exact (Option.some_injective _ hdoc').symm
      subst hdd
      simp only [stepPR, hrc] at h
      injection h with h1
      subst h1
      refine ⟨⟨hrsec, by rw [hrdoc]; rfl⟩, ?_⟩
      simp [storedVersion, hrdoc, hdoc]

/-- C3: a successful `put` on an existing vault with a loadable recipients
document writes `dek_version` equal to the stored version plus 1; a successful
`revoke` does the same; and across any successful sequence of these rotation
operations the stored version increases by exactly 1 at every step (hence it
never decreases or repeats). -/
theorem dek_version_strictly_increases (me : Identity) (r : PubKey → Nat × Nat) :
    (∀ s content k iv now enc doc res,
      s.secrets = some enc → s.recipientsDoc = some doc →
      addCmd s me content k iv r now = Except.ok res →
      res.dekVersion = doc.dek_version + 1 ∧
        storedVersion res.state = storedVersion s + 1) ∧
    (∀ s target k iv s' v,
      revokeCmd s me target k iv r = Except.ok (s', v) →
      v = storedVersion s + 1 ∧ storedVersion s' = storedVersion s + 1) ∧
    (∀ s ops s', WFVault s → runPR me r s ops = some s' →
      storedVersion s' = storedVersion s + ops.length) := by
  refine ⟨?_, ?_, ?_⟩
  · intro s content k iv now enc doc res hsec hdoc h
    simp only [addCmd, hsec, hdoc, Option.isSome_some, if_true] at h
    injection h with h1
    rw [← h1]
    exact ⟨rfl, by simp [storedVersion, hdoc]⟩
  · intro s target k iv s' v h
    obtain ⟨doc, hdoc, hv, hrdoc, _⟩ := revokeCmd_ok_inv s me target k iv r s' v h
    constructor
    · rw [hv, storedVersion, hdoc]
      rfl
    · rw [storedVersion, hrdoc, storedVersion, hdoc]
      rfl
  · intro s ops
    induction ops generalizing s with
    | nil =>
      intro s' _ h
      simp only [runPR] at h
      rw [← Option.some_injective _ h]
      simp
    | cons op rest ih =>
      intro s' hwf h
      simp only [runPR] at h
      cases hstep : stepPR me r s op with
      | none => rw [hstep] at h; exact Option.noConfusion h
      | some s1 =>
        rw [hstep] at h
        obtain ⟨hwf1, hv1⟩ := stepPR_some_version me r s op s1 hstep hwf
        have := ih s1 s' hwf1 h
        rw [this, hv1, List.length_cons]
        omega

/-- Witness for C3: from a well-formed single-recipient vault at version 1, a
`put` followed by a `revoke`-free second `put` runs to completion and lands at
stored version 3 = 1 + 2. -/
theorem dek_version_strictly_increases_witness :
    (runPR ⟨1, some "Me"⟩ (fun _ => (0, 0))
        ⟨some (encrypt (Plain.str "A=1") (SymKey.dek 7) 0),
         some ⟨1, [(1, ⟨some "Me", ⟨1⟩, sealBox (SymKey.dek 7) ⟨1⟩ 0 0, some "D0"⟩)]⟩⟩
        [MutOp.putOp "B=2" (SymKey.dek 8) 1 "T1",
         MutOp.putOp "C=3" (SymKey.dek 9) 2 "T2"]).map storedVersion =
      some (1 + 2) := by
  have h := (dek_version_strictly_increases ⟨1, some "Me"⟩ (fun _ => (0, 0))).2.2
    ⟨some (encrypt (Plain.str "A=1") (SymKey.dek 7) 0),
     some ⟨1, [(1, ⟨some "Me", ⟨1⟩, sealBox (SymKey.dek 7) ⟨1⟩ 0 0, some "D0"⟩)]⟩⟩
    [MutOp.putOp "B=2" (SymKey.dek 8) 1 "T1",
     MutOp.putOp "C=3" (SymKey.dek 9) 2 "T2"]
  cases hrun : runPR ⟨1, some "Me"⟩ (fun _ => (0, 0))
      ⟨some (encrypt (Plain.str "A=1") (SymKey.dek 7) 0),
       some ⟨1, [(1, ⟨some "Me", ⟨1⟩, sealBox (SymKey.dek 7) ⟨1⟩ 0 0, some "D0"⟩)]⟩⟩
      [MutOp.putOp "B=2" (SymKey.dek 8) 1 "T1",
       MutOp.putOp "C=3" (SymKey.dek 9) 2 "T2"] with
  | none => exact absurd hrun (by decide)
  | some sEnd =>
    have h2 := h sEnd ⟨rfl, rfl⟩ hrun
    simp only [Option.map]
    rw [show (1 + 2 : Nat) = storedVersion sEnd from by rw [h2]; rfl]

/-- C5: every vault-artifact or identity-file write goes through
`secureWriteFileSync`: the bytes are written to a sibling temp file with a random
suffix and mode 0600, fsynced, renamed onto the target, and the mode is
reasserted; a failure before the rename leaves the target untouched and the temp
file is unlinked at the end of every trace; at every intermediate point a reader
of the target sees either the complete pre-state or the complete post-state. -/
theorem secure_artifact_writes_atomic_mode_restricted (f : ArtifactFile)
    (data : String) (suffix : Nat) (fail : FailPoint) (fs : Fs) :
    (tempPath (artifactPath f) suffix).dir = (artifactPath f).dir ∧
    saveArtifactTrace f data suffix FailPoint.noFail =
      [FsOp.writeF (tempPath (artifactPath f) suffix) FILE_MODE data,
       FsOp.fsyncF (tempPath (artifactPath f) suffix),
       FsOp.renameF (tempPath (artifactPath f) suffix) (artifactPath f),
       FsOp.chmodF (artifactPath f) FILE_MODE] ∧
    applyOps fs (saveArtifactTrace f data suffix FailPoint.noFail) (artifactPath f) =
      some (data, FILE_MODE) ∧
    (∀ n : Nat,
      applyOps fs ((saveArtifactTrace f data suffix fail).take n) (artifactPath f) =
          fs (artifactPath f) ∨
      applyOps fs ((saveArtifactTrace f data suffix fail).take n) (artifactPath f) =
          some (data, FILE_MODE)) ∧
    applyOps fs (saveArtifactTrace f data suffix FailPoint.atWrite) (artifactPath f) =
      fs (artifactPath f) ∧
    applyOps fs (saveArtifactTrace f data suffix FailPoint.atFsync) (artifactPath f) =
      fs (artifactPath f) ∧
    applyOps fs (saveArtifactTrace f data suffix FailPoint.atRename) (artifactPath f) =
      fs (artifactPath f) ∧
    applyOps fs (saveArtifactTrace f data suffix fail)
      (tempPath (artifactPath f) suffix) = none := by
  have ht : artifactPath f ≠ tempPath (artifactPath f) suffix := by
    cases f <;> simp [tempPath, artifactPath]
  have ht' : tempPath (artifactPath f) suffix ≠ artifactPath f := fun hc => ht hc.symm
  refine ⟨rfl, rfl, ?_, ?_, ?_, ?_, ?_, ?_⟩
  · simp [saveArtifactTrace, secureWriteFileSyncTrace, applyOps, applyOp, ht, ht']
  · intro n
    rcases n with _ | _ | _ | _ | n <;> cases fail <;>
      simp [saveArtifactTrace, secureWriteFileSyncTrace, applyOps, applyOp, List.take,
        ht, ht']
  · simp [saveArtifactTrace, secureWriteFileSyncTrace, applyOps, applyOp, ht, ht']
  · simp [saveArtifactTrace, secureWriteFileSyncTrace, applyOps, applyOp, ht, ht']
  · simp [saveArtifactTrace, secureWriteFileSyncTrace, applyOps, applyOp, ht, ht']
  · cases fail <;>
      simp [saveArtifactTrace, secureWriteFileSyncTrace, applyOps, applyOp, ht, ht']

/-- C9 counterexample: a default `get` invocation (no output file, no print
flag) on a healthy single-recipient vault succeeds and writes the decrypted
plaintext to `.env` — so at this input the claim that no file on disk is created
or modified is false. -/
theorem getCmd_writes_dotenv_counterexample :
    getCmd ⟨some (encrypt (Plain.str "A=1") (SymKey.dek 7) 0),
        some ⟨1, [(1, ⟨some "Me", ⟨1⟩, sealBox (SymKey.dek 7) ⟨1⟩ 0 0, some "D0"⟩)]⟩⟩
      ⟨1, some "Me"⟩ none false (fun _ => none) MergeAction.replace =
      Except.ok ⟨[(".env", "A=1")], none⟩ ∧
    ([(".env", "A=1")] : List (String × String)) ≠ [] := by
  exact ⟨rfl, by decide⟩

/-- C9 (amended): `get` never rewrites the vault's artifacts or the identity
files; on success its only filesystem writes are to the resolved output file —
the explicit `outputFile` if given, else `.env` unless print mode is requested —
and a print-mode invocation with no output file writes nothing at all. -/
theorem getCmd_writes_only_resolved_target (s : VaultState) (me : Identity)
    (outputFile : Option String) (printFlag : Bool)
    (existingTarget : String → Option String) (action : MergeAction)
    (res : GetResult)
    (h : getCmd s me outputFile printFlag existingTarget action = Except.ok res) :
    (res.writes.map Prod.fst = [] ∨
      res.writes.map Prod.fst = (resolveTarget outputFile printFlag).toList) ∧
    (printFlag = true → outputFile = none → res.writes = []) := by
  cases hsec : s.secrets with
  | none => simp [getCmd, hsec] at h
  | some enc =>
    cases hdoc : s.recipientsDoc with
    | none => simp [getCmd, hsec, hdoc] at h
    | some doc =>
      simp only [getCmd, hsec, hdoc] at h
      split at h
      · exact Except.noConfusion h
      · split at h
        · exact Except.noConfusion h
        · split at h
          · exact Except.noConfusion h
          · rename_i heqTarget
            split at h
            · injection h with h1
              subst h1
              exact ⟨Or.inl rfl, fun _ _ => rfl⟩
            · rename_i t heqRes
              have htl : (resolveTarget outputFile printFlag).toList = [t] := by
                rw [heqRes]
                rfl
              have hnp : printFlag = true → outputFile = none → False := by
                intro hp ho
                rw [ho, hp] at heqRes
                exact Option.noConfusion (heqRes.symm.trans (by rfl : resolveTarget none true = none))
              split at h
              · injection h with h1
                subst h1
                exact ⟨Or.inr (by rw [htl]; rfl), fun hp ho => absurd (hnp hp ho) not_false⟩
              · split at h
                · injection h with h1
                  subst h1
                  exact ⟨Or.inl rfl, fun _ _ => rfl⟩
                · injection h with h1
                  subst h1
                  exact ⟨Or.inr (by rw [htl]; rfl), fun hp ho => absurd (hnp hp ho) not_false⟩
                · injection h with h1
                  subst h1
                  exact ⟨Or.inr (by rw [htl]; rfl), fun hp ho => absurd (hnp hp ho) not_false⟩

/-- Witness for C9 (amended): a print-mode `get` with no output file writes
nothing and only prints the plaintext. -/
theorem getCmd_writes_only_resolved_target_witness :
    ((getCmd ⟨some (encrypt (Plain.str "A=1") (SymKey.dek 7) 0),
          some ⟨1, [(1, ⟨some "Me", ⟨1⟩, sealBox (SymKey.dek 7) ⟨1⟩ 0 0, some "D0"⟩)]⟩⟩
        ⟨1, some "Me"⟩ none true (fun _ => none) MergeAction.replace =
        Except.ok ⟨[], some "A=1"⟩) ∧
      (([] : List (String × String)).map Prod.fst = [] ∨
        ([] : List (String × String)).map Prod.fst = (resolveTarget none true).toList)) :=
  ⟨rfl,
   (getCmd_writes_only_resolved_target
     ⟨some (encrypt (Plain.str "A=1") (SymKey.dek 7) 0),
      some ⟨1, [(1, ⟨some "Me", ⟨1⟩, sealBox (SymKey.dek 7) ⟨1⟩ 0 0, some "D0"⟩)]⟩⟩
     ⟨1, some "Me"⟩ none true (fun _ => none)
     MergeAction.replace ⟨[], some "A=1"⟩ rfl).1⟩

end EnvVault
